import Mathlib

/-!
# ledSpeak packet codec — formal model

Shallow embedding of the ledSpeak wire-protocol layer (`src/ledSpeak.py`):
the CRC-32 checksum engine (`binascii.crc32`), the two pixel codecs
(`ledSpeakPacketWs2812`, `ledSpeakPacketP9813`), and the packet build/parse
functions (`ledSpeakPacket.packRawFrame`, `ledSpeakPacket.unpack`).

Bytes are modelled as `Nat` values; a byte string is a `List Nat`.  Python's
`struct.pack` raises `struct.error` when a value is out of range for its
format code, so the packing helpers return `Option`: `none` models the
raised exception.  Parsing (`struct.unpack_from`) raises when the buffer is
too short for the requested offset+size; `unpack` therefore also returns
`Option`.
-/

namespace LedSpeak

/-! ## struct.pack / struct.unpack_from helpers (big-endian) -/

/-- `struct.pack('>B', n)`: one byte, raises unless `0 ≤ n < 2^8`. -/
def packFmtB (n : Nat) : Option (List Nat) :=
  if n < 2 ^ 8 then some [n] else none

/-- The two big-endian bytes of a 16-bit value (most significant first). -/
def toBE2 (n : Nat) : List Nat :=
  [(n >>> 8) &&& 255, n &&& 255]

/-- `struct.pack('>H', n)`: two big-endian bytes, raises unless `0 ≤ n < 2^16`. -/
def packFmtH (n : Nat) : Option (List Nat) :=
  if n < 2 ^ 16 then some (toBE2 n) else none

/-- The four big-endian bytes of a 32-bit value (most significant first). -/
def toBE4 (n : Nat) : List Nat :=
  [(n >>> 24) &&& 255, (n >>> 16) &&& 255, (n >>> 8) &&& 255, n &&& 255]

/-- `struct.pack('>I', n)`: four big-endian bytes, raises unless `0 ≤ n < 2^32`. -/
def packFmtI (n : Nat) : Option (List Nat) :=
  if n < 2 ^ 32 then some (toBE4 n) else none

/-- Big-endian reassembly of a byte list into a natural number
(the value read by `struct.unpack_from` of a multi-byte format). -/
def readBEList (bs : List Nat) : Nat :=
  bs.foldl (fun acc b => acc * 256 + b) 0

/-- `struct.unpack_from` of a `k`-byte big-endian field at `off`. -/
def readBEAt (bs : List Nat) (off k : Nat) : Nat :=
  readBEList ((bs.drop off).take k)

/-! ## ChecksumEngine: `binascii.crc32`

Standard CRC-32 (ISO-HDLC / zlib): reflected polynomial `0xEDB88320`,
initial register `0xFFFFFFFF`, final XOR `0xFFFFFFFF`, processed
bitwise least-significant-bit first. -/

/-- The reflected CRC-32 polynomial. -/
def crcPoly : Nat := 0xEDB88320

/-- One bit of CRC-32 register evolution. -/
def crcBitStep (c : Nat) : Nat :=
  (c >>> 1) ^^^ (if c % 2 = 1 then crcPoly else 0)

/-- Absorb one message byte into the CRC-32 register. -/
def crcByteStep (c b : Nat) : Nat :=
  crcBitStep^[8] (c ^^^ b)

/-- `binascii.crc32(data)` (with the default starting value). -/
def crc32 (data : List Nat) : Nat :=
  (data.foldl crcByteStep 0xFFFFFFFF) ^^^ 0xFFFFFFFF

/-- `ledSpeakPacket.calcCrc` just delegates to `binascii.crc32`. -/
def calcCrc (data : List Nat) : Nat := crc32 data

/-! ## PixelCodec — WS2812 variant (`ledSpeakPacketWs2812`) -/

/-- An (R, G, B) pixel as held by the Python code: a tuple of three ints. -/
abbrev Pixel3 := Nat × Nat × Nat

/-- `struct.pack('>BBB', x, y, z)`. -/
def packFmtBBB (x y z : Nat) : Option (List Nat) := do
  let a ← packFmtB x
  let b ← packFmtB y
  let c ← packFmtB z
  pure (a ++ b ++ c)

/-- `ledSpeakPacketWs2812.packPixels`: per `(r,g,b)` pixel emit
`struct.pack('>BBB', g, r, b)`, then join all the per-pixel strings. -/
def ws2812PackPixels : List Pixel3 → Option (List Nat)
  | [] => some []
  | (r, g, b) :: rest => do
    let head ← packFmtBBB g r b
    let tail ← ws2812PackPixels rest
    pure (head ++ tail)

/-- `zip(*[iter(bs)]*3)`: consecutive groups of 3 bytes, trailing
incomplete group dropped. -/
def groupsOf3 : List Nat → List (Nat × Nat × Nat)
  | a :: b :: c :: rest => (a, b, c) :: groupsOf3 rest
  | _ => []

/-- `ledSpeakPacketWs2812.unpackPixels`: read groups of 3 as `(g, r, b)`
and return `(r, g, b)` tuples. -/
def ws2812UnpackPixels (packedFrame : List Nat) : List Pixel3 :=
  (groupsOf3 packedFrame).map (fun t => (t.2.1, t.1, t.2.2))

/-! ## PixelCodec — P9813 variant (`ledSpeakPacketP9813`) -/

/-- `ledSpeakPacketP9813.pixelHeader`. -/
def pixelHeader (r g b : Nat) : Nat :=
  0xff ^^^ (0x30 &&& (b >>> 2)) ^^^ (0x0C &&& (g >>> 4)) ^^^ (0x03 &&& (r >>> 6))

/-- A 4-tuple of ints, as returned by the P9813 unpack path. -/
abbrev Pixel4 := Nat × Nat × Nat × Nat

/-- `struct.pack('>BBBB', w, x, y, z)`. -/
def packFmtBBBB (w x y z : Nat) : Option (List Nat) := do
  let a ← packFmtB w
  let b ← packFmtB x
  let c ← packFmtB y
  let d ← packFmtB z
  pure (a ++ b ++ c ++ d)

/-- `ledSpeakPacketP9813.packPixels`: per `(r,g,b)` pixel emit
`struct.pack('>BBBB', pixelHeader(r,g,b), b, g, r)`, then join. -/
def p9813PackPixels : List Pixel3 → Option (List Nat)
  | [] => some []
  | (r, g, b) :: rest => do
    let head ← packFmtBBBB (pixelHeader r g b) b g r
    let tail ← p9813PackPixels rest
    pure (head ++ tail)

/-- `zip(*[iter(bs)]*4)`: consecutive groups of 4 bytes, trailing
incomplete group dropped. -/
def groupsOf4 : List Nat → List Pixel4
  | a :: b :: c :: d :: rest => (a, b, c, d) :: groupsOf4 rest
  | _ => []

/-- `ledSpeakPacketP9813.unpackPixels`: read groups of 4 with the pattern
`(h, g, r, b)` and return the tuple `(h, r, g, b)` — exactly the source's
comprehension `[(h, r, g, b) for (h, g, r, b) in zip(*[iter(pf)]*4)]`. -/
def p9813UnpackPixels (packedFrame : List Nat) : List Pixel4 :=
  (groupsOf4 packedFrame).map (fun t => (t.1, t.2.2.1, t.2.1, t.2.2.2))

/-! ## PacketCodec (`ledSpeakPacket`) -/

/-- `MSG_TYPE.FB_RAW`. -/
def FB_RAW : Nat := 0x10

/-- The mutable per-sender state of a `ledSpeakPacket` object:
`self.seq` and `self.flags`, both initialised to 0 in `__init__`. -/
structure PacketState where
  seq : Nat
  flags : Nat
  deriving Repr, DecidableEq

/-- Fresh `ledSpeakPacket` state (`self.flags = 0`, `self.seq = 0`). -/
def initState : PacketState := ⟨0, 0⟩

/-- `ledSpeakPacket.packRawFrame`, parameterised by the subclass's
`packPixels`.  Mirrors the source line by line:
`pixelData = self.packPixels(pixels)`;
`rawFrameBuffer = struct.pack('>I', len(pixelData)) + pixelData`;
`payLoad = struct.pack('>HBB', self.seq, self.flags, FB_RAW) + rawFrameBuffer`;
`packetData = struct.pack('>II', len(payLoad), self.calcCrc(payLoad)) + payLoad`;
`self.seq += 1` (note: a plain increment, no modular reduction).
`none` models a raised `struct.error`; on an exception `self.seq` is not
incremented, matching the model's lack of a state change. -/
def packRawFrame (packPixels : List Pixel3 → Option (List Nat))
    (st : PacketState) (pixels : List Pixel3) :
    Option (List Nat × PacketState) := do
  let pixelData ← packPixels pixels
  let lenWords ← packFmtI pixelData.length
  let rawFrameBuffer := lenWords ++ pixelData
  let seqBytes ← packFmtH st.seq
  let flagByte ← packFmtB st.flags
  let typeByte ← packFmtB FB_RAW
  let payLoad := seqBytes ++ flagByte ++ typeByte ++ rawFrameBuffer
  let hdrLen ← packFmtI payLoad.length
  let hdrCrc ← packFmtI (calcCrc payLoad)
  let packetData := hdrLen ++ hdrCrc ++ payLoad
  pure (packetData, { st with seq := st.seq + 1 })

/-- The fields `ledSpeakPacket.unpack` stores on `self`, generic in the
element type produced by the subclass's `unpackPixels`.  `payloadFbLen`
is a `List Nat` because the source keeps the un-destructured result of
`struct.unpack_from('>I', packetData, 12)` — a one-element tuple. -/
structure ParsedPacket (α : Type) where
  rcvdLen : Nat
  payloadLen : Nat
  payloadCrc : Nat
  payloadSeq : Nat
  flags : Nat
  msgType : Nat
  payloadFbLen : List Nat
  fb : List α
  localCrc : Nat
  deriving Repr

/-- `ledSpeakPacket.unpack`, parameterised by the subclass's
`unpackPixels`.  The three guards model the three `struct.unpack_from`
calls: `'>II'` at offset 0 needs 8 bytes, `'>HBB'` at offset 8 needs
bytes up to 12, `'>I'` at offset 12 needs bytes up to 16; a buffer too
short for any of them raises `struct.error` (modelled by `none`). -/
def unpack (unpackPixels : List Nat → List α) (packetData : List Nat) :
    Option (ParsedPacket α) :=
  if packetData.length < 8 then none
  else if packetData.length < 12 then none
  else if packetData.length < 16 then none
  else some
    { rcvdLen := packetData.length
      payloadLen := readBEAt packetData 0 4
      payloadCrc := readBEAt packetData 4 4
      payloadSeq := readBEAt packetData 8 2
      flags := packetData.getD 10 0
      msgType := packetData.getD 11 0
      payloadFbLen := [readBEAt packetData 12 4]
      fb := unpackPixels (packetData.drop 16)
      localCrc := calcCrc (packetData.drop 8) }

/-- The `framePixels` constant sent by the `simple` command. -/
def framePixels : List Pixel3 := [(255, 0, 0), (0, 255, 0), (0, 0, 255)]

/-- Run `n` consecutive `packRawFrame` calls (WS2812 codec, the `simple`
send loop) threading the sender state; `none` as soon as one raises. -/
def buildSeqN (st : PacketState) : Nat → Option PacketState
  | 0 => some st
  | n + 1 =>
    match packRawFrame ws2812PackPixels st framePixels with
    | some (_, st') => buildSeqN st' n
    | none => none

/-- Flip bit `j` of the byte at offset `i` of a byte string. -/
def flipBit (bs : List Nat) (i j : Nat) : List Nat :=
  bs.set i (bs.getD i 0 ^^^ 2 ^ j)

/-- A Python 3-tuple of ints, as compared by Python `==`
(tuples of different length are never equal). -/
def pyTuple3 (t : Pixel3) : List Nat := [t.1, t.2.1, t.2.2]

/-- A Python 4-tuple of ints, as compared by Python `==`. -/
def pyTuple4 (t : Pixel4) : List Nat := [t.1, t.2.1, t.2.2.1, t.2.2.2]

/-- All three channels of a pixel are 8-bit values. -/
def ValidPixel (p : Pixel3) : Prop := p.1 < 256 ∧ p.2.1 < 256 ∧ p.2.2 < 256

instance (p : Pixel3) : Decidable (ValidPixel p) :=
  inferInstanceAs (Decidable (_ ∧ _ ∧ _))

end LedSpeak

namespace LedSpeak

/-! ## Big-endian byte lemmas -/

theorem readBEList_toBE2 (n : Nat) (h : n < 2 ^ 16) : readBEList (toBE2 n) = n := by
  have h8 : (n >>> 8) &&& 255 = (n / 2 ^ 8) % 2 ^ 8 := by
    rw [Nat.shiftRight_eq_div_pow]
    have : (255 : Nat) = 2 ^ 8 - 1 := by norm_num
    rw [this, Nat.and_pow_two_sub_one_eq_mod]
  have h0 : n &&& 255 = n % 2 ^ 8 := by
    have : (255 : Nat) = 2 ^ 8 - 1 := by norm_num
    rw [this, Nat.and_pow_two_sub_one_eq_mod]
  simp only [readBEList, toBE2, List.foldl, h8, h0]
  omega

theorem readBEList_toBE4 (n : Nat) (h : n < 2 ^ 32) : readBEList (toBE4 n) = n := by
  have hmask : (255 : Nat) = 2 ^ 8 - 1 := by norm_num
  have h24 : (n >>> 24) &&& 255 = (n / 2 ^ 24) % 2 ^ 8 := by
    rw [Nat.shiftRight_eq_div_pow, hmask, Nat.and_pow_two_sub_one_eq_mod]
  have h16 : (n >>> 16) &&& 255 = (n / 2 ^ 16) % 2 ^ 8 := by
    rw [Nat.shiftRight_eq_div_pow, hmask, Nat.and_pow_two_sub_one_eq_mod]
  have h8 : (n >>> 8) &&& 255 = (n / 2 ^ 8) % 2 ^ 8 := by
    rw [Nat.shiftRight_eq_div_pow, hmask, Nat.and_pow_two_sub_one_eq_mod]
  have h0 : n &&& 255 = n % 2 ^ 8 := by
    rw [hmask, Nat.and_pow_two_sub_one_eq_mod]
  simp only [readBEList, toBE4, List.foldl, h24, h16, h8, h0]
  omega

theorem toBE2_mem_lt (n : Nat) : ∀ b ∈ toBE2 n, b < 256 := by
  have hmask : (255 : Nat) = 2 ^ 8 - 1 := by norm_num
  intro b hb
  simp only [toBE2, List.mem_cons, List.mem_singleton, List.not_mem_nil, or_false] at hb
  rcases hb with h | h <;>
    · subst h
      rw [hmask, Nat.and_pow_two_sub_one_eq_mod]
      exact Nat.mod_lt _ (by norm_num)

theorem toBE4_mem_lt (n : Nat) : ∀ b ∈ toBE4 n, b < 256 := by
  have hmask : (255 : Nat) = 2 ^ 8 - 1 := by norm_num
  intro b hb
  simp only [toBE4, List.mem_cons, List.mem_singleton, List.not_mem_nil, or_false] at hb
  rcases hb with h | h | h | h <;>
    · subst h
      rw [hmask, Nat.and_pow_two_sub_one_eq_mod]
      exact Nat.mod_lt _ (by norm_num)

/-! ## CRC-32 algebra

`crcBitStep` is F₂-linear on the register (viewed as a bit vector), and it
maps a nonzero register below `2^32` to a nonzero register below `2^32`.
Together these give: two messages differing in exactly one bit have
different CRC-32 values. -/

theorem shiftRight_xor_distrib (x y k : Nat) :
    (x ^^^ y) >>> k = (x >>> k) ^^^ (y >>> k) := by
  apply Nat.eq_of_testBit_eq
  intro i
  simp [Nat.testBit_shiftRight, Nat.testBit_xor]

theorem crcBitStep_xor (x y : Nat) :
    crcBitStep (x ^^^ y) = crcBitStep x ^^^ crcBitStep y := by
  have hpar : (x ^^^ y) % 2 = (x % 2) ^^^ (y % 2) := by
    rw [← Nat.and_one_is_mod, ← Nat.and_one_is_mod, ← Nat.and_one_is_mod,
      Nat.and_xor_distrib_right]
  unfold crcBitStep
  rw [shiftRight_xor_distrib]
  rcases Nat.mod_two_eq_zero_or_one x with hx | hx <;>
    rcases Nat.mod_two_eq_zero_or_one y with hy | hy <;>
      rw [hx, hy] at hpar <;> rw [hpar, hx, hy]
  · simp
  · simp [Nat.xor_assoc]
  · simp only [show ((1 : Nat) ^^^ 0) = 1 by decide, show ((1 : Nat) = 1) = True by simp,
      show ((0 : Nat) = 1) = False by simp, if_true, if_false, Nat.xor_zero]
    rw [Nat.xor_assoc, Nat.xor_comm (y >>> 1) crcPoly, ← Nat.xor_assoc]
  · simp only [show ((1 : Nat) ^^^ 1) = 0 by decide, show ((1 : Nat) = 1) = True by simp,
      show ((0 : Nat) = 1) = False by simp, if_true, if_false, Nat.xor_zero]
    rw [Nat.xor_assoc (x >>> 1) crcPoly, Nat.xor_comm crcPoly (y >>> 1 ^^^ crcPoly),
      Nat.xor_cancel_right]

theorem crcBitStep_lt (x : Nat) (h : x < 2 ^ 32) : crcBitStep x < 2 ^ 32 := by
  have h1 : x >>> 1 < 2 ^ 32 := by
    rw [Nat.shiftRight_eq_div_pow]
    omega
  have hp : crcPoly < 2 ^ 32 := by norm_num [crcPoly]
  unfold crcBitStep
  split
  · exact Nat.xor_lt_two_pow h1 hp
  · simpa using h1

theorem crcBitStep_ne_zero (x : Nat) (hx : x ≠ 0) (h : x < 2 ^ 32) :
    crcBitStep x ≠ 0 := by
  unfold crcBitStep
  split
  · -- odd case: bit 31 of the result is set, since `x >>> 1 < 2^31`
    -- while `crcPoly` has bit 31 set
    intro hzero
    have hb : ((x >>> 1) ^^^ crcPoly).testBit 31 = false := by
      rw [hzero]; exact Nat.zero_testBit 31
    have hlt : x >>> 1 < 2 ^ 31 := by
      rw [Nat.shiftRight_eq_div_pow]
      omega
    rw [Nat.testBit_xor, Nat.testBit_lt_two_pow hlt] at hb
    have : crcPoly.testBit 31 = true := by decide
    rw [this] at hb
    simp at hb
  · -- even case: the result is `x >>> 1`, and an even nonzero `x` is ≥ 2
    rename_i hodd
    have hx2 : x % 2 = 0 := by omega
    have : 2 ≤ x := by omega
    rw [Nat.xor_zero, Nat.shiftRight_eq_div_pow]
    have : 1 ≤ x / 2 ^ 1 := by omega
    omega

theorem crcIter_xor (n x y : Nat) :
    crcBitStep^[n] (x ^^^ y) = crcBitStep^[n] x ^^^ crcBitStep^[n] y := by
  induction n generalizing x y with
  | zero => simp
  | succ n ih =>
    rw [Function.iterate_succ_apply, Function.iterate_succ_apply,
      Function.iterate_succ_apply, crcBitStep_xor, ih]

theorem crcIter_lt (n x : Nat) (h : x < 2 ^ 32) : crcBitStep^[n] x < 2 ^ 32 := by
  induction n generalizing x with
  | zero => simpa using h
  | succ n ih => rw [Function.iterate_succ_apply]; exact ih _ (crcBitStep_lt _ h)

theorem crcIter_ne_zero (n x : Nat) (hx : x ≠ 0) (h : x < 2 ^ 32) :
    crcBitStep^[n] x ≠ 0 := by
  induction n generalizing x with
  | zero => simpa using hx
  | succ n ih =>
    rw [Function.iterate_succ_apply]
    exact ih _ (crcBitStep_ne_zero _ hx h) (crcBitStep_lt _ h)

theorem crcByteStep_xor_right (s b d : Nat) :
    crcByteStep s (b ^^^ d) = crcByteStep s b ^^^ crcBitStep^[8] d := by
  unfold crcByteStep
  rw [← Nat.xor_assoc, crcIter_xor]

theorem foldl_crcByteStep_xor (l : List Nat) (s d : Nat) :
    l.foldl crcByteStep (s ^^^ d) =
      l.foldl crcByteStep s ^^^ crcBitStep^[8 * l.length] d := by
  induction l generalizing s d with
  | nil => simp
  | cons b t ih =>
    have hstep : crcByteStep (s ^^^ d) b = crcByteStep s b ^^^ crcBitStep^[8] d := by
      unfold crcByteStep
      rw [Nat.xor_assoc, Nat.xor_comm d b, ← Nat.xor_assoc, crcIter_xor]
    simp only [List.foldl_cons, hstep, ih, List.length_cons]
    rw [← Function.iterate_add_apply]
    congr 1

end LedSpeak

namespace LedSpeak

/-! ## CRC-32 detects any single-bit error -/

theorem foldl_crcByteStep_set (j : Nat) :
    ∀ (m : List Nat) (i s : Nat), i < m.length →
      (m.set i (m.getD i 0 ^^^ 2 ^ j)).foldl crcByteStep s =
        m.foldl crcByteStep s ^^^ crcBitStep^[8 * (m.length - i)] (2 ^ j) := by
  intro m
  induction m with
  | nil => intro i s hi; simp at hi
  | cons b t ih =>
    intro i s hi
    match i with
    | 0 =>
      simp only [List.set_cons_zero, List.getD_cons_zero, List.foldl_cons,
        List.length_cons, Nat.sub_zero]
      rw [crcByteStep_xor_right, foldl_crcByteStep_xor, ← Function.iterate_add_apply,
        show 8 * t.length + 8 = 8 * (t.length + 1) by ring]
    | k + 1 =>
      simp only [List.set_cons_succ, List.getD_cons_succ, List.foldl_cons,
        List.length_cons, Nat.succ_sub_succ]
      exact ih k (crcByteStep s b) (by simpa using Nat.lt_of_succ_lt_succ hi)

theorem crc32_set_ne (m : List Nat) (i j : Nat) (hi : i < m.length) (hj : j < 32) :
    crc32 (m.set i (m.getD i 0 ^^^ 2 ^ j)) ≠ crc32 m := by
  unfold crc32
  intro h
  have hfold : (m.set i (m.getD i 0 ^^^ 2 ^ j)).foldl crcByteStep 0xFFFFFFFF =
      m.foldl crcByteStep 0xFFFFFFFF := Nat.xor_left_inj.mp h
  rw [foldl_crcByteStep_set j m i 0xFFFFFFFF hi] at hfold
  have hD : crcBitStep^[8 * (m.length - i)] (2 ^ j) = 0 := by
    apply Nat.xor_right_injective (n := m.foldl crcByteStep 0xFFFFFFFF)
    rw [Nat.xor_zero]
    exact hfold
  exact crcIter_ne_zero _ _ (Nat.pos_iff_ne_zero.mp (Nat.pos_pow_of_pos j (by norm_num)))
    (Nat.pow_lt_pow_right (by norm_num) hj) hD

/-! ## WS2812 codec lemmas -/

theorem packFmtB_eq_some (n : Nat) (h : n < 256) : packFmtB n = some [n] := by
  unfold packFmtB
  rw [if_pos (show n < 2 ^ 8 by omega)]

/-- The byte string `ledSpeakPacketWs2812.packPixels` produces:
`(g, r, b)` per pixel, joined. -/
def wsPixelBytes (pixels : List Pixel3) : List Nat :=
  (pixels.map (fun p => [p.2.1, p.1, p.2.2])).flatten

theorem ws2812PackPixels_eq (pixels : List Pixel3)
    (h : ∀ p ∈ pixels, ValidPixel p) :
    ws2812PackPixels pixels = some (wsPixelBytes pixels) := by
  induction pixels with
  | nil => simp [ws2812PackPixels, wsPixelBytes]
  | cons p rest ih =>
    obtain ⟨r, g, b⟩ := p
    obtain ⟨hr, hg, hb⟩ := h _ (List.mem_cons_self _ _)
    replace hr : r < 256 := hr
    replace hg : g < 256 := hg
    replace hb : b < 256 := hb
    have ht : ∀ q ∈ rest, ValidPixel q := fun q hq => h q (List.mem_cons_of_mem _ hq)
    simp only [ws2812PackPixels, packFmtBBB, packFmtB_eq_some g hg, packFmtB_eq_some r hr,
      packFmtB_eq_some b hb, ih ht]
    rfl

theorem wsPixelBytes_length (pixels : List Pixel3) :
    (wsPixelBytes pixels).length = 3 * pixels.length := by
  induction pixels with
  | nil => simp [wsPixelBytes]
  | cons p rest ih =>
    simp only [wsPixelBytes, List.map_cons, List.flatten_cons, List.length_append,
      List.length_cons] at ih ⊢
    simp only [List.length_cons, List.length_nil] at ih ⊢
    omega

theorem wsPixelBytes_mem_lt (pixels : List Pixel3)
    (h : ∀ p ∈ pixels, ValidPixel p) :
    ∀ x ∈ wsPixelBytes pixels, x < 256 := by
  induction pixels with
  | nil => simp [wsPixelBytes]
  | cons p rest ih =>
    obtain ⟨r, g, b⟩ := p
    obtain ⟨hr, hg, hb⟩ := h _ (List.mem_cons_self _ _)
    replace hr : r < 256 := hr
    replace hg : g < 256 := hg
    replace hb : b < 256 := hb
    have ht : ∀ q ∈ rest, ValidPixel q := fun q hq => h q (List.mem_cons_of_mem _ hq)
    intro x hx
    simp only [wsPixelBytes, List.map_cons, List.flatten_cons, List.cons_append,
      List.nil_append, List.mem_cons, List.mem_append] at hx
    rcases hx with rfl | rfl | rfl | hx
    · exact hg
    · exact hr
    · exact hb
    · exact ih ht x (by simpa [wsPixelBytes] using hx)

theorem ws2812UnpackPixels_wsPixelBytes (pixels : List Pixel3) :
    ws2812UnpackPixels (wsPixelBytes pixels) = pixels := by
  induction pixels with
  | nil => simp [wsPixelBytes, ws2812UnpackPixels, groupsOf3]
  | cons p rest ih =>
    obtain ⟨r, g, b⟩ := p
    simp only [wsPixelBytes, List.map_cons, List.flatten_cons, List.cons_append,
      List.nil_append, ws2812UnpackPixels, groupsOf3, List.map_cons] at ih ⊢
    exact congrArg _ ih

/-! ## P9813 codec lemmas -/

theorem pixelHeader_lt (r g b : Nat) : pixelHeader r g b < 256 := by
  have h256 : (256 : Nat) = 2 ^ 8 := by norm_num
  have h1 : (0x30 &&& (b >>> 2)) < 256 :=
    lt_of_le_of_lt Nat.and_le_left (by norm_num)
  have h2 : (0x0C &&& (g >>> 4)) < 256 :=
    lt_of_le_of_lt Nat.and_le_left (by norm_num)
  have h3 : (0x03 &&& (r >>> 6)) < 256 :=
    lt_of_le_of_lt Nat.and_le_left (by norm_num)
  rw [pixelHeader, h256] at *
  exact Nat.xor_lt_two_pow (Nat.xor_lt_two_pow (Nat.xor_lt_two_pow (by norm_num) h1) h2) h3

/-- The byte string `ledSpeakPacketP9813.packPixels` produces:
`(header, b, g, r)` per pixel, joined. -/
def p9813PixelBytes (pixels : List Pixel3) : List Nat :=
  (pixels.map (fun p => [pixelHeader p.1 p.2.1 p.2.2, p.2.2, p.2.1, p.1])).flatten

theorem p9813PackPixels_eq (pixels : List Pixel3)
    (h : ∀ p ∈ pixels, ValidPixel p) :
    p9813PackPixels pixels = some (p9813PixelBytes pixels) := by
  induction pixels with
  | nil => simp [p9813PackPixels, p9813PixelBytes]
  | cons p rest ih =>
    obtain ⟨r, g, b⟩ := p
    obtain ⟨hr, hg, hb⟩ := h _ (List.mem_cons_self _ _)
    replace hr : r < 256 := hr
    replace hg : g < 256 := hg
    replace hb : b < 256 := hb
    have ht : ∀ q ∈ rest, ValidPixel q := fun q hq => h q (List.mem_cons_of_mem _ hq)
    simp only [p9813PackPixels, packFmtBBBB,
      packFmtB_eq_some (pixelHeader r g b) (pixelHeader_lt r g b),
      packFmtB_eq_some b hb, packFmtB_eq_some g hg, packFmtB_eq_some r hr, ih ht]
    rfl

theorem p9813UnpackPixels_p9813PixelBytes (pixels : List Pixel3) :
    p9813UnpackPixels (p9813PixelBytes pixels) =
      pixels.map (fun p => (pixelHeader p.1 p.2.1 p.2.2, p.2.1, p.2.2, p.1)) := by
  induction pixels with
  | nil => simp [p9813PixelBytes, p9813UnpackPixels, groupsOf4]
  | cons p rest ih =>
    obtain ⟨r, g, b⟩ := p
    simp only [p9813PixelBytes, List.map_cons, List.flatten_cons, List.cons_append,
      List.nil_append, p9813UnpackPixels, groupsOf4, List.map_cons] at ih ⊢
    exact congrArg _ ih

end LedSpeak

namespace LedSpeak

/-! ## CRC-32 range -/

theorem crcByteStep_lt (s b : Nat) (hs : s < 2 ^ 32) (hb : b < 256) :
    crcByteStep s b < 2 ^ 32 := by
  unfold crcByteStep
  exact crcIter_lt 8 _ (Nat.xor_lt_two_pow hs (by omega))

theorem foldl_crcByteStep_lt (l : List Nat) (s : Nat) (hs : s < 2 ^ 32)
    (h : ∀ b ∈ l, b < 256) : l.foldl crcByteStep s < 2 ^ 32 := by
  induction l generalizing s with
  | nil => simpa using hs
  | cons b t ih =>
    simp only [List.foldl_cons]
    exact ih _ (crcByteStep_lt s b hs (h b (List.mem_cons_self _ _)))
      (fun x hx => h x (List.mem_cons_of_mem _ hx))

theorem crc32_lt (l : List Nat) (h : ∀ b ∈ l, b < 256) : crc32 l < 2 ^ 32 := by
  unfold crc32
  exact Nat.xor_lt_two_pow (foldl_crcByteStep_lt l _ (by norm_num) h) (by norm_num)

/-! ## The packet built by `packRawFrame` with the WS2812 codec -/

/-- The payload region (`payLoad` in the source): sequence, flags,
message type, framebuffer length, pixel bytes. -/
def wsPayload (st : PacketState) (pixels : List Pixel3) : List Nat :=
  toBE2 st.seq ++ [st.flags] ++ [FB_RAW] ++
    toBE4 (wsPixelBytes pixels).length ++ wsPixelBytes pixels

/-- The full packet (`packetData` in the source): length, CRC, payload. -/
def wsPacket (st : PacketState) (pixels : List Pixel3) : List Nat :=
  toBE4 (wsPayload st pixels).length ++ toBE4 (crc32 (wsPayload st pixels)) ++
    wsPayload st pixels

theorem wsPayload_length (st : PacketState) (pixels : List Pixel3) :
    (wsPayload st pixels).length = 8 + 3 * pixels.length := by
  simp [wsPayload, toBE2, toBE4, wsPixelBytes_length]
  omega

theorem wsPayload_mem_lt (st : PacketState) (pixels : List Pixel3)
    (hflags : st.flags < 256) (hv : ∀ p ∈ pixels, ValidPixel p) :
    ∀ x ∈ wsPayload st pixels, x < 256 := by
  intro x hx
  simp only [wsPayload, List.mem_append, List.mem_singleton] at hx
  rcases hx with (((hx | rfl) | rfl) | hx) | hx
  · exact toBE2_mem_lt _ x hx
  · exact hflags
  · norm_num [FB_RAW]
  · exact toBE4_mem_lt _ x hx
  · exact wsPixelBytes_mem_lt pixels hv x hx

theorem packRawFrame_ws_eq (st : PacketState) (pixels : List Pixel3)
    (hv : ∀ p ∈ pixels, ValidPixel p) (hseq : st.seq < 2 ^ 16)
    (hflags : st.flags < 256) (hlen : 8 + 3 * pixels.length < 2 ^ 32) :
    packRawFrame ws2812PackPixels st pixels =
      some (wsPacket st pixels, ⟨st.seq + 1, st.flags⟩) := by
  have h0 : ws2812PackPixels pixels = some (wsPixelBytes pixels) :=
    ws2812PackPixels_eq pixels hv
  have h1 : packFmtI (wsPixelBytes pixels).length =
      some (toBE4 (wsPixelBytes pixels).length) := by
    unfold packFmtI
    rw [if_pos (by rw [wsPixelBytes_length]; omega)]
  have h2 : packFmtH st.seq = some (toBE2 st.seq) := by
    unfold packFmtH
    rw [if_pos hseq]
  have h3 : packFmtB st.flags = some [st.flags] := packFmtB_eq_some _ hflags
  have h4 : packFmtB FB_RAW = some [FB_RAW] := packFmtB_eq_some _ (by norm_num [FB_RAW])
  have hpay : toBE2 st.seq ++ [st.flags] ++ [FB_RAW] ++
      (toBE4 (wsPixelBytes pixels).length ++ wsPixelBytes pixels) = wsPayload st pixels := by
    simp [wsPayload, List.append_assoc]
  have h5 : packFmtI (wsPayload st pixels).length =
      some (toBE4 (wsPayload st pixels).length) := by
    unfold packFmtI
    rw [if_pos (by rw [wsPayload_length]; omega)]
  have h6 : packFmtI (calcCrc (wsPayload st pixels)) =
      some (toBE4 (crc32 (wsPayload st pixels))) := by
    unfold packFmtI calcCrc
    rw [if_pos (crc32_lt _ (wsPayload_mem_lt st pixels hflags hv))]
  simp only [packRawFrame, h0, h1, h2, h3, h4, Option.bind_eq_bind, Option.some_bind,
    hpay, h5, h6, wsPacket]
  rfl

end LedSpeak

namespace LedSpeak

/-! ## Parsing an arbitrary buffer -/

theorem cons_decomp (l : List Nat) (h : 1 ≤ l.length) : ∃ a t, l = a :: t := by
  cases l with
  | nil => simp at h
  | cons a t => exact ⟨a, t, rfl⟩

/-- `ledSpeakPacket.unpack` on any buffer of at least 16 bytes: it never
raises, and every stored field is determined by the bytes as shown. -/
theorem unpack_fields {α : Type} (u : List Nat → List α) (data : List Nat)
    (h : 16 ≤ data.length) :
    unpack u data = some
      { rcvdLen := data.length
        payloadLen := data.getD 0 0 * 16777216 + data.getD 1 0 * 65536 +
          data.getD 2 0 * 256 + data.getD 3 0
        payloadCrc := data.getD 4 0 * 16777216 + data.getD 5 0 * 65536 +
          data.getD 6 0 * 256 + data.getD 7 0
        payloadSeq := data.getD 8 0 * 256 + data.getD 9 0
        flags := data.getD 10 0
        msgType := data.getD 11 0
        payloadFbLen := [data.getD 12 0 * 16777216 + data.getD 13 0 * 65536 +
          data.getD 14 0 * 256 + data.getD 15 0]
        fb := u (data.drop 16)
        localCrc := crc32 (data.drop 8) } := by
  obtain ⟨a0, d0, rfl⟩ := cons_decomp data (by omega)
  obtain ⟨a1, d1, rfl⟩ := cons_decomp d0 (by simp only [List.length_cons] at h; omega)
  obtain ⟨a2, d2, rfl⟩ := cons_decomp d1 (by simp only [List.length_cons] at h; omega)
  obtain ⟨a3, d3, rfl⟩ := cons_decomp d2 (by simp only [List.length_cons] at h; omega)
  obtain ⟨a4, d4, rfl⟩ := cons_decomp d3 (by simp only [List.length_cons] at h; omega)
  obtain ⟨a5, d5, rfl⟩ := cons_decomp d4 (by simp only [List.length_cons] at h; omega)
  obtain ⟨a6, d6, rfl⟩ := cons_decomp d5 (by simp only [List.length_cons] at h; omega)
  obtain ⟨a7, d7, rfl⟩ := cons_decomp d6 (by simp only [List.length_cons] at h; omega)
  obtain ⟨a8, d8, rfl⟩ := cons_decomp d7 (by simp only [List.length_cons] at h; omega)
  obtain ⟨a9, d9, rfl⟩ := cons_decomp d8 (by simp only [List.length_cons] at h; omega)
  obtain ⟨a10, d10, rfl⟩ := cons_decomp d9 (by simp only [List.length_cons] at h; omega)
  obtain ⟨a11, d11, rfl⟩ := cons_decomp d10 (by simp only [List.length_cons] at h; omega)
  obtain ⟨a12, d12, rfl⟩ := cons_decomp d11 (by simp only [List.length_cons] at h; omega)
  obtain ⟨a13, d13, rfl⟩ := cons_decomp d12 (by simp only [List.length_cons] at h; omega)
  obtain ⟨a14, d14, rfl⟩ := cons_decomp d13 (by simp only [List.length_cons] at h; omega)
  obtain ⟨a15, d15, rfl⟩ := cons_decomp d14 (by simp only [List.length_cons] at h; omega)
  simp only [List.length_cons] at h
  unfold unpack
  rw [if_neg (by simp only [List.length_cons]; omega),
    if_neg (by simp only [List.length_cons]; omega),
    if_neg (by simp only [List.length_cons]; omega)]
  simp only [Option.some.injEq, ParsedPacket.mk.injEq]
  refine ⟨?_, ?_, ?_, ?_, ?_, ?_, ?_, ?_, ?_⟩ <;>
    · try simp only [readBEAt, readBEList, calcCrc, List.drop, List.take, List.foldl]
      try simp
      try omega

theorem be4_arith (n : Nat) (h : n < 2 ^ 32) :
    ((n >>> 24) &&& 255) * 16777216 + ((n >>> 16) &&& 255) * 65536 +
      ((n >>> 8) &&& 255) * 256 + (n &&& 255) = n := by
  have hmask : (255 : Nat) = 2 ^ 8 - 1 := by norm_num
  rw [Nat.shiftRight_eq_div_pow, Nat.shiftRight_eq_div_pow, Nat.shiftRight_eq_div_pow,
    hmask, Nat.and_pow_two_sub_one_eq_mod, Nat.and_pow_two_sub_one_eq_mod,
    Nat.and_pow_two_sub_one_eq_mod, Nat.and_pow_two_sub_one_eq_mod]
  omega

theorem be2_arith (n : Nat) (h : n < 2 ^ 16) :
    ((n >>> 8) &&& 255) * 256 + (n &&& 255) = n := by
  have hmask : (255 : Nat) = 2 ^ 8 - 1 := by norm_num
  rw [Nat.shiftRight_eq_div_pow, hmask, Nat.and_pow_two_sub_one_eq_mod,
    Nat.and_pow_two_sub_one_eq_mod]
  omega

theorem wsPacket_length (st : PacketState) (pixels : List Pixel3) :
    (wsPacket st pixels).length = 16 + 3 * pixels.length := by
  simp [wsPacket, toBE4, wsPayload_length]
  omega

/-- Parsing a packet built by `packRawFrame` (WS2812) recovers every field. -/
theorem unpack_wsPacket (st : PacketState) (pixels : List Pixel3)
    (hv : ∀ p ∈ pixels, ValidPixel p) (hseq : st.seq < 2 ^ 16)
    (hflags : st.flags < 256) (hlen : 8 + 3 * pixels.length < 2 ^ 32) :
    unpack ws2812UnpackPixels (wsPacket st pixels) = some
      { rcvdLen := 16 + 3 * pixels.length
        payloadLen := 8 + 3 * pixels.length
        payloadCrc := crc32 (wsPayload st pixels)
        payloadSeq := st.seq
        flags := st.flags
        msgType := FB_RAW
        payloadFbLen := [3 * pixels.length]
        fb := pixels
        localCrc := crc32 (wsPayload st pixels) } := by
  have hplen : (wsPayload st pixels).length = 8 + 3 * pixels.length :=
    wsPayload_length st pixels
  have hcrclt : crc32 (wsPayload st pixels) < 2 ^ 32 :=
    crc32_lt _ (wsPayload_mem_lt st pixels hflags hv)
  rw [unpack_fields ws2812UnpackPixels (wsPacket st pixels)
    (by rw [wsPacket_length]; omega)]
  simp only [Option.some.injEq, ParsedPacket.mk.injEq]
  refine ⟨wsPacket_length st pixels, ?_, ?_, ?_, ?_, ?_, ?_, ?_, ?_⟩
  · -- payloadLen: the first four bytes are `toBE4 (wsPayload …).length`
    show ((wsPayload st pixels).length >>> 24 &&& 255) * 16777216 +
        ((wsPayload st pixels).length >>> 16 &&& 255) * 65536 +
        ((wsPayload st pixels).length >>> 8 &&& 255) * 256 +
        ((wsPayload st pixels).length &&& 255) = 8 + 3 * pixels.length
    rw [be4_arith _ (by omega), hplen]
  · -- payloadCrc: bytes 4–7 are `toBE4 (crc32 (wsPayload …))`
    show (crc32 (wsPayload st pixels) >>> 24 &&& 255) * 16777216 +
        (crc32 (wsPayload st pixels) >>> 16 &&& 255) * 65536 +
        (crc32 (wsPayload st pixels) >>> 8 &&& 255) * 256 +
        (crc32 (wsPayload st pixels) &&& 255) = crc32 (wsPayload st pixels)
    exact be4_arith _ hcrclt
  · -- payloadSeq: bytes 8–9 are `toBE2 st.seq`
    show (st.seq >>> 8 &&& 255) * 256 + (st.seq &&& 255) = st.seq
    exact be2_arith _ hseq
  · -- flags: byte 10
    rfl
  · -- msgType: byte 11
    rfl
  · -- payloadFbLen: bytes 12–15 are `toBE4 (wsPixelBytes …).length`
    show [((wsPixelBytes pixels).length >>> 24 &&& 255) * 16777216 +
        ((wsPixelBytes pixels).length >>> 16 &&& 255) * 65536 +
        ((wsPixelBytes pixels).length >>> 8 &&& 255) * 256 +
        ((wsPixelBytes pixels).length &&& 255)] = [3 * pixels.length]
    rw [be4_arith _ (by rw [wsPixelBytes_length]; omega), wsPixelBytes_length]
  · -- fb: bytes 16… are the pixel bytes
    show ws2812UnpackPixels (List.drop 16 (wsPacket st pixels)) = pixels
    rw [show List.drop 16 (wsPacket st pixels) = wsPixelBytes pixels from rfl,
      ws2812UnpackPixels_wsPixelBytes]
  · -- localCrc: bytes 8… are the payload
    show crc32 (List.drop 8 (wsPacket st pixels)) = crc32 (wsPayload st pixels)
    rw [show List.drop 8 (wsPacket st pixels) = wsPayload st pixels from rfl]

/-! ## Sequence counter behaviour over repeated builds -/

theorem packRawFrame_ws_overflow (st : PacketState) (hseq : 2 ^ 16 ≤ st.seq) :
    packRawFrame ws2812PackPixels st framePixels = none := by
  have h0 : ws2812PackPixels framePixels = some (wsPixelBytes framePixels) :=
    ws2812PackPixels_eq _ (by decide)
  have h1 : packFmtI (wsPixelBytes framePixels).length =
      some (toBE4 (wsPixelBytes framePixels).length) := by
    unfold packFmtI
    rw [if_pos (by decide)]
  have h2 : packFmtH st.seq = none := by
    unfold packFmtH
    rw [if_neg (by omega)]
  simp only [packRawFrame, h0, h1, h2, Option.bind_eq_bind, Option.some_bind,
    Option.none_bind]

theorem buildSeqN_ok : ∀ (n : Nat) (st : PacketState), st.flags = 0 →
    st.seq + n ≤ 2 ^ 16 → buildSeqN st n = some ⟨st.seq + n, 0⟩ := by
  intro n
  induction n with
  | zero =>
    intro st hf hs
    cases st with
    | mk s f =>
      simp only [buildSeqN]
      simp at hf
      subst hf
      rfl
  | succ n ih =>
    intro st hf hs
    rw [buildSeqN, packRawFrame_ws_eq st framePixels (by decide) (by omega)
      (by omega) (by norm_num [framePixels])]
    show buildSeqN ⟨st.seq + 1, st.flags⟩ n = some ⟨st.seq + (n + 1), 0⟩
    rw [ih ⟨st.seq + 1, st.flags⟩ hf (by simp; omega)]
    simp only [Option.some.injEq, PacketState.mk.injEq]
    exact ⟨by omega, trivial⟩

theorem buildSeqN_add (m n : Nat) : ∀ st : PacketState,
    buildSeqN st (m + n) = (buildSeqN st m).bind (fun st' => buildSeqN st' n) := by
  induction m with
  | zero =>
    intro st
    simp [buildSeqN]
  | succ m ih =>
    intro st
    rw [show m + 1 + n = (m + n) + 1 by omega, buildSeqN, buildSeqN]
    cases hp : packRawFrame ws2812PackPixels st framePixels with
    | none => simp
    | some r => simpa using ih r.2

/-! ## Tampering with a built packet -/

/-- Flipping one bit at byte offset `i ≥ 8` of any buffer of the shape
`toBE4 a ++ toBE4 (crc32 m) ++ m` (an 8-byte length/CRC header whose
declared checksum is the CRC of the byte-valued body `m`) and reparsing:
the recomputed CRC no longer matches the declared checksum field.
Generic in the driver codec `u`. -/
theorem unpack_flip_hdr {α : Type} (u : List Nat → List α) (a : Nat) (m : List Nat)
    (hm : ∀ b ∈ m, b < 256) (hm8 : 8 ≤ m.length) (i j : Nat)
    (hi8 : 8 ≤ i) (hil : i < 8 + m.length) (hj : j < 8) :
    ∃ p : ParsedPacket α,
      unpack u (flipBit (toBE4 a ++ toBE4 (crc32 m) ++ m) i j) = some p ∧
        p.localCrc ≠ p.payloadCrc := by
  have hcrclt : crc32 m < 2 ^ 32 := crc32_lt _ hm
  have hhdr : (toBE4 a ++ toBE4 (crc32 m)).length = 8 := rfl
  have him : i - 8 < m.length := by omega
  have hflip : flipBit (toBE4 a ++ toBE4 (crc32 m) ++ m) i j =
      (toBE4 a ++ toBE4 (crc32 m)) ++ m.set (i - 8) (m.getD (i - 8) 0 ^^^ 2 ^ j) := by
    unfold flipBit
    rw [show toBE4 a ++ toBE4 (crc32 m) ++ m =
      (toBE4 a ++ toBE4 (crc32 m)) ++ m from rfl]
    rw [List.set_append_right _ _ (by rw [hhdr]; omega),
      List.getD_append_right _ _ _ _ (by rw [hhdr]; omega), hhdr]
  rw [hflip]
  have h16 : 16 ≤ ((toBE4 a ++ toBE4 (crc32 m)) ++
      m.set (i - 8) (m.getD (i - 8) 0 ^^^ 2 ^ j)).length := by
    rw [List.length_append, hhdr, List.length_set]
    omega
  refine ⟨_, unpack_fields u _ h16, ?_⟩
  show crc32 (List.drop 8 ((toBE4 a ++ toBE4 (crc32 m)) ++
      m.set (i - 8) (m.getD (i - 8) 0 ^^^ 2 ^ j))) ≠
    (crc32 m >>> 24 &&& 255) * 16777216 + (crc32 m >>> 16 &&& 255) * 65536 +
      (crc32 m >>> 8 &&& 255) * 256 + (crc32 m &&& 255)
  rw [be4_arith _ hcrclt,
    show List.drop 8 ((toBE4 a ++ toBE4 (crc32 m)) ++
        m.set (i - 8) (m.getD (i - 8) 0 ^^^ 2 ^ j)) =
      m.set (i - 8) (m.getD (i - 8) 0 ^^^ 2 ^ j) from rfl]
  exact crc32_set_ne m (i - 8) j him (by omega)

/-- A successful `packRawFrame` call, with any pixel codec, produced a
packet of the shape length-word, CRC-word, payload — where the declared
CRC is `crc32` of the payload and the payload starts with the sequence,
flags and message-type bytes.  Also recovers that the flags byte passed
its `struct.pack('>B', …)` range check. -/
theorem packRawFrame_some_elim (packPixels : List Pixel3 → Option (List Nat))
    (st : PacketState) (pixels : List Pixel3) (pkt : List Nat) (st' : PacketState)
    (hpack : packRawFrame packPixels st pixels = some (pkt, st')) :
    ∃ pd : List Nat, packPixels pixels = some pd ∧ st.flags < 256 ∧
      pkt = toBE4 (toBE2 st.seq ++ [st.flags] ++ [FB_RAW] ++
          (toBE4 pd.length ++ pd)).length ++
        toBE4 (crc32 (toBE2 st.seq ++ [st.flags] ++ [FB_RAW] ++
          (toBE4 pd.length ++ pd))) ++
        (toBE2 st.seq ++ [st.flags] ++ [FB_RAW] ++ (toBE4 pd.length ++ pd)) := by
  cases hfp : packPixels pixels with
  | none =>
    rw [packRawFrame, hfp] at hpack
    simp at hpack
  | some pd =>
    rw [packRawFrame, hfp] at hpack
    simp only [Option.bind_eq_bind, Option.some_bind] at hpack
    by_cases h1 : pd.length < 2 ^ 32
    case neg =>
      rw [show packFmtI pd.length = none from by unfold packFmtI; rw [if_neg h1]] at hpack
      simp at hpack
    case pos =>
    rw [show packFmtI pd.length = some (toBE4 pd.length) from by
      unfold packFmtI; rw [if_pos h1]] at hpack
    simp only [Option.some_bind] at hpack
    by_cases h2 : st.seq < 2 ^ 16
    case neg =>
      rw [show packFmtH st.seq = none from by unfold packFmtH; rw [if_neg h2]] at hpack
      simp at hpack
    case pos =>
    rw [show packFmtH st.seq = some (toBE2 st.seq) from by
      unfold packFmtH; rw [if_pos h2]] at hpack
    simp only [Option.some_bind] at hpack
    by_cases h3 : st.flags < 2 ^ 8
    case neg =>
      rw [show packFmtB st.flags = none from by unfold packFmtB; rw [if_neg h3]] at hpack
      simp at hpack
    case pos =>
    rw [packFmtB_eq_some st.flags (by omega)] at hpack
    simp only [Option.some_bind] at hpack
    rw [packFmtB_eq_some FB_RAW (by norm_num [FB_RAW])] at hpack
    simp only [Option.some_bind] at hpack
    by_cases h5 : (toBE2 st.seq ++ [st.flags] ++ [FB_RAW] ++
        (toBE4 pd.length ++ pd)).length < 2 ^ 32
    case neg =>
      rw [show packFmtI (toBE2 st.seq ++ [st.flags] ++ [FB_RAW] ++
          (toBE4 pd.length ++ pd)).length = none from by
        unfold packFmtI; rw [if_neg h5]] at hpack
      simp at hpack
    case pos =>
    rw [show packFmtI (toBE2 st.seq ++ [st.flags] ++ [FB_RAW] ++
        (toBE4 pd.length ++ pd)).length =
      some (toBE4 (toBE2 st.seq ++ [st.flags] ++ [FB_RAW] ++
        (toBE4 pd.length ++ pd)).length) from by
      unfold packFmtI; rw [if_pos h5]] at hpack
    simp only [Option.some_bind] at hpack
    by_cases h6 : calcCrc (toBE2 st.seq ++ [st.flags] ++ [FB_RAW] ++
        (toBE4 pd.length ++ pd)) < 2 ^ 32
    case neg =>
      rw [show packFmtI (calcCrc (toBE2 st.seq ++ [st.flags] ++ [FB_RAW] ++
          (toBE4 pd.length ++ pd))) = none from by
        unfold packFmtI; rw [if_neg h6]] at hpack
      simp at hpack
    case pos =>
    rw [show packFmtI (calcCrc (toBE2 st.seq ++ [st.flags] ++ [FB_RAW] ++
        (toBE4 pd.length ++ pd))) =
      some (toBE4 (calcCrc (toBE2 st.seq ++ [st.flags] ++ [FB_RAW] ++
        (toBE4 pd.length ++ pd)))) from by
      unfold packFmtI; rw [if_pos h6]] at hpack
    simp only [Option.some_bind, Option.pure_def, Option.some.injEq,
      Prod.mk.injEq] at hpack
    exact ⟨pd, rfl, by omega, hpack.1.symm⟩

end LedSpeak

namespace LedSpeak

theorem p9813PixelBytes_length (pixels : List Pixel3) :
    (p9813PixelBytes pixels).length = 4 * pixels.length := by
  induction pixels with
  | nil => simp [p9813PixelBytes]
  | cons p rest ih =>
    simp only [p9813PixelBytes, List.map_cons, List.flatten_cons, List.length_append,
      List.length_cons, List.length_nil] at ih ⊢
    omega

theorem buildSeqN_one_none (st : PacketState)
    (h : packRawFrame ws2812PackPixels st framePixels = none) :
    buildSeqN st 1 = none := by
  rw [show (1 : Nat) = 0 + 1 from rfl, buildSeqN, h]

end LedSpeak

namespace LedSpeak

/-- C1 counterexample: the P9813 codec does not round-trip.  Packing the
single pixel `(1,2,3)` yields the bytes `[255,3,2,1]`, and unpacking those
bytes yields the 4-tuple `(255,2,3,1)` — as a Python value this is not
equal to the 3-tuple `(1,2,3)`. -/
theorem c1_p9813_roundtrip_counterexample :
    p9813PackPixels [(1, 2, 3)] = some [255, 3, 2, 1] ∧
    p9813UnpackPixels [255, 3, 2, 1] = [(255, 2, 3, 1)] ∧
    pyTuple4 (255, 2, 3, 1) ≠ pyTuple3 (1, 2, 3) := by
  refine ⟨rfl, rfl, by decide⟩

/-- C1 (amended): for every pixel sequence with 8-bit channels, the P9813
round-trip `unpackPixels(packPixels(pixels))` returns, for each input pixel
`(r,g,b)`, the 4-tuple `(pixelHeader r g b, g, b, r)` — the per-pixel
header together with a permutation of the channels, not the original
pixel. -/
theorem c1_p9813_roundtrip_amended (pixels : List Pixel3)
    (hv : ∀ p ∈ pixels, ValidPixel p) :
    ∃ bs, p9813PackPixels pixels = some bs ∧
      p9813UnpackPixels bs =
        pixels.map (fun p => (pixelHeader p.1 p.2.1 p.2.2, p.2.1, p.2.2, p.1)) :=
  ⟨_, p9813PackPixels_eq pixels hv, p9813UnpackPixels_p9813PixelBytes pixels⟩

/-- C1 witness: the amended statement at the concrete pixel `(1,2,3)`. -/
theorem c1_p9813_roundtrip_amended_witness :
    (∀ p ∈ ([(1, 2, 3)] : List Pixel3), ValidPixel p) ∧
    (∃ bs, p9813PackPixels [(1, 2, 3)] = some bs ∧
      p9813UnpackPixels bs =
        ([(1, 2, 3)] : List Pixel3).map
          (fun p => (pixelHeader p.1 p.2.1 p.2.2, p.2.1, p.2.2, p.1))) :=
  ⟨by decide, c1_p9813_roundtrip_amended [(1, 2, 3)] (by decide)⟩

/-- C2: the source has no sequence wraparound.  From a fresh sender
(counter 0), 65536 consecutive `packRawFrame` builds do succeed and leave
the counter at 65536 — but the 65537th build raises `struct.error`
(modelled as `none`) instead of emitting sequence number 0 again, because
`self.seq += 1` never reduces modulo 2^16 and `struct.pack('>H', 65536)`
is out of range. -/
theorem c2_sequence_overflow_codebug :
    buildSeqN initState 65536 = some { seq := 65536, flags := 0 } ∧
    buildSeqN initState 65537 = none := by
  constructor
  · exact buildSeqN_ok 65536 initState rfl (by norm_num [initState])
  · rw [show (65537 : Nat) = 65536 + 1 from rfl, buildSeqN_add 65536 1 initState,
      buildSeqN_ok 65536 initState rfl (by norm_num [initState])]
    show buildSeqN ⟨initState.seq + 65536, 0⟩ 1 = none
    exact buildSeqN_one_none _ (packRawFrame_ws_overflow _ (by norm_num [initState]))

/-- C4: the WS2812 codec round-trips: for every pixel sequence with 8-bit
channels, `unpackPixels(packPixels(pixels))` is the original sequence. -/
theorem c4_ws2812_pixel_roundtrip (pixels : List Pixel3)
    (hv : ∀ p ∈ pixels, ValidPixel p) :
    ∃ bs, ws2812PackPixels pixels = some bs ∧ ws2812UnpackPixels bs = pixels :=
  ⟨_, ws2812PackPixels_eq pixels hv, ws2812UnpackPixels_wsPixelBytes pixels⟩

/-- C4 witness: the round-trip at the three-pixel example frame. -/
theorem c4_ws2812_pixel_roundtrip_witness :
    (∀ p ∈ framePixels, ValidPixel p) ∧
    (∃ bs, ws2812PackPixels framePixels = some bs ∧
      ws2812UnpackPixels bs = framePixels) :=
  ⟨by decide, c4_ws2812_pixel_roundtrip framePixels (by decide)⟩

/-- C5: `unpack` fails fast (raises `struct.error`, modelled as `none`) on
every buffer shorter than 16 bytes, for any driver codec; no parsed result
is produced. -/
theorem c5_unpack_short_buffer_none {α : Type} (u : List Nat → List α)
    (data : List Nat) (h : data.length < 16) : unpack u data = none := by
  unfold unpack
  by_cases h1 : data.length < 8
  · rw [if_pos h1]
  · rw [if_neg h1]
    by_cases h2 : data.length < 12
    · rw [if_pos h2]
    · rw [if_neg h2, if_pos (by omega)]

/-- C5 witness: a 15-byte buffer is rejected. -/
theorem c5_unpack_short_buffer_none_witness :
    (List.replicate 15 0).length < 16 ∧
    unpack ws2812UnpackPixels (List.replicate 15 0) = none :=
  ⟨by decide, c5_unpack_short_buffer_none ws2812UnpackPixels _ (by decide)⟩

/-- C7: the P9813 `packPixels` emits 4 bytes per pixel in the order
`[header, B, G, R]` with
`header = 0xFF XOR (0x30 AND (B >> 2)) XOR (0x0C AND (G >> 4)) XOR (0x03 AND (R >> 6))`. -/
theorem c7_p9813_pack_layout (pixels : List Pixel3)
    (hv : ∀ p ∈ pixels, ValidPixel p) :
    ∃ bs, p9813PackPixels pixels = some bs ∧
      bs = (pixels.map (fun p =>
        [0xff ^^^ (0x30 &&& (p.2.2 >>> 2)) ^^^ (0x0C &&& (p.2.1 >>> 4)) ^^^
            (0x03 &&& (p.1 >>> 6)),
          p.2.2, p.2.1, p.1])).flatten ∧
      bs.length = 4 * pixels.length :=
  ⟨_, p9813PackPixels_eq pixels hv, rfl, p9813PixelBytes_length pixels⟩

/-- C7 witness: for the pixel `(R,G,B) = (0xFF, 0, 0)` the packed bytes
are `[0xFC, 0x00, 0x00, 0xFF]`. -/
theorem c7_p9813_pack_layout_witness :
    (∀ p ∈ ([(255, 0, 0)] : List Pixel3), ValidPixel p) ∧
    (∃ bs, p9813PackPixels [(255, 0, 0)] = some bs ∧
      bs = (([(255, 0, 0)] : List Pixel3).map (fun p =>
        [0xff ^^^ (0x30 &&& (p.2.2 >>> 2)) ^^^ (0x0C &&& (p.2.1 >>> 4)) ^^^
            (0x03 &&& (p.1 >>> 6)),
          p.2.2, p.2.1, p.1])).flatten ∧
      bs.length = 4 * ([(255, 0, 0)] : List Pixel3).length) ∧
    p9813PackPixels [(255, 0, 0)] = some [0xFC, 0x00, 0x00, 0xFF] :=
  ⟨by decide, c7_p9813_pack_layout [(255, 0, 0)] (by decide), by rfl⟩

/-- C8: the WS2812 `packPixels` emits exactly `3 * len(pixels)` bytes,
mapping each `(R,G,B)` pixel to the bytes `(G,R,B)` in input order. -/
theorem c8_ws2812_pack_layout (pixels : List Pixel3)
    (hv : ∀ p ∈ pixels, ValidPixel p) :
    ∃ bs, ws2812PackPixels pixels = some bs ∧
      bs = (pixels.map (fun p => [p.2.1, p.1, p.2.2])).flatten ∧
      bs.length = 3 * pixels.length :=
  ⟨_, ws2812PackPixels_eq pixels hv, rfl, wsPixelBytes_length pixels⟩

/-- C8 witness: `packPixels([(1,2,3)])` is the byte string `[2,1,3]`. -/
theorem c8_ws2812_pack_layout_witness :
    (∀ p ∈ ([(1, 2, 3)] : List Pixel3), ValidPixel p) ∧
    (∃ bs, ws2812PackPixels [(1, 2, 3)] = some bs ∧
      bs = (([(1, 2, 3)] : List Pixel3).map (fun p => [p.2.1, p.1, p.2.2])).flatten ∧
      bs.length = 3 * ([(1, 2, 3)] : List Pixel3).length) ∧
    ws2812PackPixels [(1, 2, 3)] = some [2, 1, 3] :=
  ⟨by decide, c8_ws2812_pack_layout [(1, 2, 3)] (by decide), by rfl⟩

end LedSpeak

namespace LedSpeak

/-- C3: building a raw-frame packet with the WS2812 codec and parsing the
resulting bytes recovers the pixel list, messageType `FB_RAW` (0x10), a
recomputed CRC equal to the declared checksum, a declared totalLength
equal to the byte count after the 8-byte header, a parsed sequence equal
to the pre-build counter, and a counter advanced by exactly 1. -/
theorem c3_ws2812_packet_roundtrip (st : PacketState) (pixels : List Pixel3)
    (hv : ∀ p ∈ pixels, ValidPixel p) (hseq : st.seq < 2 ^ 16)
    (hflags : st.flags < 256) (hlen : 8 + 3 * pixels.length < 2 ^ 32) :
    ∃ (pkt : List Nat) (st' : PacketState) (p : ParsedPacket Pixel3),
      packRawFrame ws2812PackPixels st pixels = some (pkt, st') ∧
      unpack ws2812UnpackPixels pkt = some p ∧
      p.fb = pixels ∧
      p.msgType = FB_RAW ∧
      p.localCrc = p.payloadCrc ∧
      p.payloadLen = pkt.length - 8 ∧
      p.payloadSeq = st.seq ∧
      st'.seq = st.seq + 1 := by
  refine ⟨wsPacket st pixels, ⟨st.seq + 1, st.flags⟩, _,
    packRawFrame_ws_eq st pixels hv hseq hflags hlen,
    unpack_wsPacket st pixels hv hseq hflags hlen, rfl, rfl, rfl, ?_, rfl, rfl⟩
  show 8 + 3 * pixels.length = (wsPacket st pixels).length - 8
  rw [wsPacket_length]
  omega

/-- C3 witness: the round-trip at `[(255,0,0),(0,255,0),(0,0,255)]` from a
fresh sender. -/
theorem c3_ws2812_packet_roundtrip_witness :
    (∀ p ∈ framePixels, ValidPixel p) ∧ initState.seq < 2 ^ 16 ∧
    initState.flags < 256 ∧ 8 + 3 * framePixels.length < 2 ^ 32 ∧
    (∃ (pkt : List Nat) (st' : PacketState) (p : ParsedPacket Pixel3),
      packRawFrame ws2812PackPixels initState framePixels = some (pkt, st') ∧
      unpack ws2812UnpackPixels pkt = some p ∧
      p.fb = framePixels ∧
      p.msgType = FB_RAW ∧
      p.localCrc = p.payloadCrc ∧
      p.payloadLen = pkt.length - 8 ∧
      p.payloadSeq = initState.seq ∧
      st'.seq = initState.seq + 1) :=
  ⟨by decide, by decide, by decide, by decide,
    c3_ws2812_packet_roundtrip initState framePixels (by decide) (by decide)
      (by decide) (by decide)⟩

/-- C6: for every buffer of at least 16 bytes, `unpack` completes without
raising — regardless of any mismatch between declared and actual lengths
or between declared and recomputed checksums — and exposes the received
length, both declared big-endian header fields, the recomputed CRC-32 of
`bytes[8:]`, sequence, flags, messageType, and the decoded pixel list of
`bytes[16:]` as data. -/
theorem c6_unpack_total_on_long_buffer {α : Type} (u : List Nat → List α)
    (data : List Nat) (h : 16 ≤ data.length) :
    ∃ p : ParsedPacket α, unpack u data = some p ∧
      p.rcvdLen = data.length ∧
      p.payloadLen = data.getD 0 0 * 2 ^ 24 + data.getD 1 0 * 2 ^ 16 +
        data.getD 2 0 * 2 ^ 8 + data.getD 3 0 ∧
      p.payloadCrc = data.getD 4 0 * 2 ^ 24 + data.getD 5 0 * 2 ^ 16 +
        data.getD 6 0 * 2 ^ 8 + data.getD 7 0 ∧
      p.payloadSeq = data.getD 8 0 * 2 ^ 8 + data.getD 9 0 ∧
      p.flags = data.getD 10 0 ∧
      p.msgType = data.getD 11 0 ∧
      p.payloadFbLen = [data.getD 12 0 * 2 ^ 24 + data.getD 13 0 * 2 ^ 16 +
        data.getD 14 0 * 2 ^ 8 + data.getD 15 0] ∧
      p.fb = u (data.drop 16) ∧
      p.localCrc = crc32 (data.drop 8) :=
  ⟨_, unpack_fields u data h, rfl, by norm_num, by norm_num, by norm_num,
    rfl, rfl, by norm_num, rfl, rfl⟩

/-- C6 witness: a 16-byte all-zero buffer (whose declared totalLength 0
and declared checksum 0 both mismatch) parses to a result. -/
theorem c6_unpack_total_on_long_buffer_witness :
    16 ≤ (List.replicate 16 0).length ∧
    (∃ p : ParsedPacket Pixel3, unpack ws2812UnpackPixels (List.replicate 16 0) = some p ∧
      p.rcvdLen = (List.replicate 16 (0 : Nat)).length ∧
      p.payloadLen = (List.replicate 16 (0 : Nat)).getD 0 0 * 2 ^ 24 +
        (List.replicate 16 (0 : Nat)).getD 1 0 * 2 ^ 16 +
        (List.replicate 16 (0 : Nat)).getD 2 0 * 2 ^ 8 +
        (List.replicate 16 (0 : Nat)).getD 3 0 ∧
      p.payloadCrc = (List.replicate 16 (0 : Nat)).getD 4 0 * 2 ^ 24 +
        (List.replicate 16 (0 : Nat)).getD 5 0 * 2 ^ 16 +
        (List.replicate 16 (0 : Nat)).getD 6 0 * 2 ^ 8 +
        (List.replicate 16 (0 : Nat)).getD 7 0 ∧
      p.payloadSeq = (List.replicate 16 (0 : Nat)).getD 8 0 * 2 ^ 8 +
        (List.replicate 16 (0 : Nat)).getD 9 0 ∧
      p.flags = (List.replicate 16 (0 : Nat)).getD 10 0 ∧
      p.msgType = (List.replicate 16 (0 : Nat)).getD 11 0 ∧
      p.payloadFbLen = [(List.replicate 16 (0 : Nat)).getD 12 0 * 2 ^ 24 +
        (List.replicate 16 (0 : Nat)).getD 13 0 * 2 ^ 16 +
        (List.replicate 16 (0 : Nat)).getD 14 0 * 2 ^ 8 +
        (List.replicate 16 (0 : Nat)).getD 15 0] ∧
      p.fb = ws2812UnpackPixels ((List.replicate 16 0).drop 16) ∧
      p.localCrc = crc32 ((List.replicate 16 0).drop 8)) :=
  ⟨by decide, c6_unpack_total_on_long_buffer ws2812UnpackPixels
    (List.replicate 16 0) (by decide)⟩

/-- C9: flipping any single bit at byte offset 8 or beyond of any packet
produced by `packRawFrame` — with any pixel codec whose output is a byte
string (both WS2812 and P9813 qualify) — and reparsing the modified bytes
with any driver codec yields a recomputed CRC-32 different from the
declared checksum field. -/
theorem c9_single_bitflip_checksum_mismatch {α : Type} (u : List Nat → List α)
    (packPixels : List Pixel3 → Option (List Nat)) (st st' : PacketState)
    (pixels : List Pixel3) (pkt : List Nat) (i j : Nat)
    (hbytes : ∀ b ∈ (packPixels pixels).getD [], b < 256)
    (hpack : packRawFrame packPixels st pixels = some (pkt, st'))
    (hi8 : 8 ≤ i) (hil : i < pkt.length) (hj : j < 8) :
    ∃ p : ParsedPacket α,
      unpack u (flipBit pkt i j) = some p ∧ p.localCrc ≠ p.payloadCrc := by
  obtain ⟨pd, hfp, hflags, hpkt⟩ :=
    packRawFrame_some_elim packPixels st pixels pkt st' hpack
  rw [hfp] at hbytes
  replace hbytes : ∀ b ∈ pd, b < 256 := by simpa using hbytes
  have hmlen : (toBE2 st.seq ++ [st.flags] ++ [FB_RAW] ++
      (toBE4 pd.length ++ pd)).length = 8 + pd.length := by
    simp [toBE2, toBE4]
    omega
  have hil8 : i < 8 + (toBE2 st.seq ++ [st.flags] ++ [FB_RAW] ++
      (toBE4 pd.length ++ pd)).length := by
    rw [hpkt] at hil
    simp only [List.length_append, toBE4, List.length_cons, List.length_nil] at hil
    rw [hmlen]
    simp only [List.length_append, toBE2, toBE4, List.length_cons,
      List.length_nil] at hil ⊢
    omega
  have hmem : ∀ b ∈ toBE2 st.seq ++ [st.flags] ++ [FB_RAW] ++
      (toBE4 pd.length ++ pd), b < 256 := by
    intro x hx
    simp only [List.mem_append, List.mem_singleton] at hx
    rcases hx with ((hx | rfl) | rfl) | hx | hx
    · exact toBE2_mem_lt _ x hx
    · exact hflags
    · norm_num [FB_RAW]
    · exact toBE4_mem_lt _ x hx
    · exact hbytes x hx
  rw [hpkt]
  exact unpack_flip_hdr u _ _ hmem (by rw [hmlen]; omega) i j hi8 hil8 hj

set_option maxRecDepth 100000 in
/-- C9 witness: flip bit 0 of byte 8 (the first byte covered by the CRC) of
the packet built with the P9813 codec for the single pixel (255,0,0); the
reparse shows a checksum mismatch. -/
theorem c9_single_bitflip_checksum_mismatch_witness :
    (∀ b ∈ (p9813PackPixels [((255 : Nat), (0 : Nat), (0 : Nat))]).getD [], b < 256) ∧
    packRawFrame p9813PackPixels initState [(255, 0, 0)] =
      some ([0, 0, 0, 12, 195, 39, 100, 76, 0, 0, 0, 16, 0, 0, 0, 4, 252, 0, 0, 255],
        ⟨1, 0⟩) ∧
    8 ≤ 8 ∧
    8 < ([0, 0, 0, 12, 195, 39, 100, 76, 0, 0, 0, 16, 0, 0, 0, 4, 252, 0, 0,
      255] : List Nat).length ∧
    (0 : Nat) < 8 ∧
    (∃ p : ParsedPacket Pixel4,
      unpack p9813UnpackPixels
        (flipBit [0, 0, 0, 12, 195, 39, 100, 76, 0, 0, 0, 16, 0, 0, 0, 4, 252, 0, 0,
          255] 8 0) = some p ∧
        p.localCrc ≠ p.payloadCrc) :=
  ⟨by rw [show (p9813PackPixels [((255 : Nat), (0 : Nat), (0 : Nat))]).getD [] =
      [252, 0, 0, 255] from rfl]; decide,
    by rfl, by decide, by decide, by decide,
    c9_single_bitflip_checksum_mismatch p9813UnpackPixels p9813PackPixels initState
      ⟨1, 0⟩ [(255, 0, 0)]
      [0, 0, 0, 12, 195, 39, 100, 76, 0, 0, 0, 16, 0, 0, 0, 4, 252, 0, 0, 255] 8 0
      (by rw [show (p9813PackPixels [((255 : Nat), (0 : Nat), (0 : Nat))]).getD [] =
        [252, 0, 0, 255] from rfl]; decide)
      (by rfl) (by decide) (by decide) (by decide)⟩

/-- C10: the big-endian field at offset 12 is exposed as the one-element
tuple produced by `struct.unpack_from('>I', …, 12)` (a singleton, not the
bare integer) and has no effect on pixel decoding: replacing bytes 12–15
with any 32-bit value `v` still decodes the pixels of `bytes[16:]`, and
both the original and the modified buffer decode to the same pixel
list. -/
theorem c10_fblen_field_inert {α : Type} (u : List Nat → List α)
    (data : List Nat) (h : 16 ≤ data.length) (v : Nat) (hvlt : v < 2 ^ 32) :
    ∃ p : ParsedPacket α,
      unpack u (data.take 12 ++ toBE4 v ++ data.drop 16) = some p ∧
      p.payloadFbLen = [v] ∧
      p.fb = u (data.drop 16) ∧
      ∃ q : ParsedPacket α, unpack u data = some q ∧ q.fb = p.fb := by
  have hT12 : (data.take 12).length = 12 := by
    rw [List.length_take]
    omega
  have hAB : (data.take 12 ++ toBE4 v).length = 16 := by
    rw [List.length_append, hT12]
    rfl
  have hS : 16 ≤ ((data.take 12 ++ toBE4 v) ++ data.drop 16).length := by
    rw [List.length_append, hAB]
    omega
  have e12 : ((data.take 12 ++ toBE4 v) ++ data.drop 16).getD 12 0 = (v >>> 24) &&& 255 := by
    rw [List.getD_append _ _ _ _ (by rw [hAB]; omega),
      List.getD_append_right _ _ _ _ (by rw [hT12]), hT12]
    rfl
  have e13 : ((data.take 12 ++ toBE4 v) ++ data.drop 16).getD 13 0 = (v >>> 16) &&& 255 := by
    rw [List.getD_append _ _ _ _ (by rw [hAB]; omega),
      List.getD_append_right _ _ _ _ (by rw [hT12]; omega), hT12]
    rfl
  have e14 : ((data.take 12 ++ toBE4 v) ++ data.drop 16).getD 14 0 = (v >>> 8) &&& 255 := by
    rw [List.getD_append _ _ _ _ (by rw [hAB]; omega),
      List.getD_append_right _ _ _ _ (by rw [hT12]; omega), hT12]
    rfl
  have e15 : ((data.take 12 ++ toBE4 v) ++ data.drop 16).getD 15 0 = v &&& 255 := by
    rw [List.getD_append _ _ _ _ (by rw [hAB]; omega),
      List.getD_append_right _ _ _ _ (by rw [hT12]; omega), hT12]
    rfl
  have hdrop : ((data.take 12 ++ toBE4 v) ++ data.drop 16).drop 16 = data.drop 16 :=
    List.drop_left' hAB
  refine ⟨_, unpack_fields u _ hS, ?_, ?_, _, unpack_fields u data h, ?_⟩
  · show [((data.take 12 ++ toBE4 v) ++ data.drop 16).getD 12 0 * 16777216 +
      ((data.take 12 ++ toBE4 v) ++ data.drop 16).getD 13 0 * 65536 +
      ((data.take 12 ++ toBE4 v) ++ data.drop 16).getD 14 0 * 256 +
      ((data.take 12 ++ toBE4 v) ++ data.drop 16).getD 15 0] = [v]
    rw [e12, e13, e14, e15]
    exact congrArg (fun x => [x]) (be4_arith v hvlt)
  · show u (((data.take 12 ++ toBE4 v) ++ data.drop 16).drop 16) = u (data.drop 16)
    rw [hdrop]
  · show u (data.drop 16) = u (((data.take 12 ++ toBE4 v) ++ data.drop 16).drop 16)
    rw [hdrop]

/-- C10 witness: splicing the value 5 into bytes 12–15 of a 16-byte zero
buffer. -/
theorem c10_fblen_field_inert_witness :
    16 ≤ (List.replicate 16 0).length ∧ (5 : Nat) < 2 ^ 32 ∧
    (∃ p : ParsedPacket Pixel3,
      unpack ws2812UnpackPixels ((List.replicate 16 0).take 12 ++ toBE4 5 ++
        (List.replicate 16 0).drop 16) = some p ∧
      p.payloadFbLen = [5] ∧
      p.fb = ws2812UnpackPixels ((List.replicate 16 0).drop 16) ∧
      ∃ q : ParsedPacket Pixel3,
        unpack ws2812UnpackPixels (List.replicate 16 0) = some q ∧ q.fb = p.fb) :=
  ⟨by decide, by decide,
    c10_fblen_field_inert ws2812UnpackPixels (List.replicate 16 0) (by decide) 5
      (by decide)⟩

end LedSpeak
